import Mathlib

/-
Verification of picasso/gui/localize.py against its specification.

The Python module is shallowly embedded below: widget behaviour (spin box
clamping, combo boxes), the window state mutated by the slot methods, the
numpy array store touched by draw_frame, the nested calibration lookup of
ParametersDialog, and the polling loop shared by the two worker threads.
Each definition is translated from the source function named in its doc
comment.
-/

namespace Localize

/-! ## Spin box widgets -/

/-- Behaviour of QSpinBox.setValue with an integer range lo..hi: the requested
value is clamped into the range. -/
def spinBoxClamp (lo hi v : Int) : Int := max lo (min hi v)

/-- Behaviour of OddSpinBox (localize.py lines 152-162): the box spin box sets
no explicit range, so the Qt default range 0..99 applies; on_value_changed then
replaces an even value by value + 1.  The recursive valueChanged fired by
setValue(value + 1) is a fixed point because value + 1 is odd. -/
def oddSpinBoxValue (v : Int) : Int :=
  let c := spinBoxClamp 0 99 v
  if c % 2 == 0 then c + 1 else c

/-- Behaviour of QDoubleSpinBox.setValue with range lo..hi: the requested value
is clamped into the range.  The decimals setting rounds within the range and is
not modelled separately since it maps the range into itself. -/
def doubleSpinBoxClamp (lo hi v : ℚ) : ℚ := max lo (min hi v)

/-- ParametersDialog convergence criterion control (localize.py lines 409-414):
setRange(0, 1), so any entered value is clamped into the closed interval. -/
def convergenceValue (v : ℚ) : ℚ := doubleSpinBoxClamp 0 1 v

/-- ParametersDialog max iterations control (localize.py lines 416-419):
setRange(0, 999999). -/
def maxIterationsValue (v : Int) : Int := spinBoxClamp 0 999999 v

/-! ## Fit method selection -/

/-- Window.fit (localize.py line 884): the dict literal keyed True to sigma and
False to sigmaxy, indexed with the Symmetric PSF checkbox state. -/
def fitMethod (symmetric : Bool) : String :=
  if symmetric then "sigma" else "sigmaxy"

/-! ## Byte order prompt -/

/-- Values appearing in the byte order comparison of
PromptInfoDialog.getMovieSpecs: the combo box widget object and Python
strings. -/
inductive PyVal where
  | comboBox (items : List String) (currentIndex : Nat)
  | pystr (s : String)

/-- Python equality as used at localize.py line 233: two str objects compare by
content; a QComboBox object compared with a str has no __eq__ overlap and is
never equal. -/
def pyEq : PyVal → PyVal → Bool
  | PyVal.pystr a, PyVal.pystr b => a == b
  | _, _ => false

/-- Items of the byte order combo box (localize.py line 195). -/
def byteOrderItems : List String := ["Little Endian (loads faster)", "Big Endian"]

/-- PromptInfoDialog.getMovieSpecs byte order field (localize.py line 233):
the source compares dialog.byte_order, the combo box object itself, with the
string big endian. -/
def movieSpecsByteOrder (byteOrderWidget : PyVal) : String :=
  if pyEq byteOrderWidget (PyVal.pystr "big endian") then ">" else "<"

/-! ## Mouse ROI selection -/

/-- Position of a mouse event in view (screen) coordinates. -/
structure ScreenPoint where
  x : Int
  y : Int

/-- Point in scene coordinates as returned by mapToScene. -/
structure ScenePoint where
  x : ℚ
  y : ℚ

/-- Python int() applied to a float truncates toward zero. -/
def pyInt (q : ℚ) : Int := if 0 ≤ q then ⌊q⌋ else ⌈q⌉

/-- View.mouseReleaseEvent left-button branch (localize.py lines 80-91): the
selection extent is measured in view coordinates before mapping to the scene;
an extent below 10 pixels in either direction clears the ROI, otherwise the
ROI is the list of [row, column] pairs of the two corner points mapped to
scene coordinates. -/
def mouseReleaseROI (origin stop : ScreenPoint)
    (mapToScene : ScreenPoint → ScenePoint) : Option (List (List Int)) :=
  let dx := (stop.x - origin.x).natAbs
  let dy := (stop.y - origin.y).natAbs
  if dx < 10 ∨ dy < 10 then none
  else
    some ([origin, stop].map (fun p => [pyInt (mapToScene p).y, pyInt (mapToScene p).x]))

/-- Identity view-to-scene mapping, used to evaluate the ROI selection at
concrete inputs. -/
def sceneId (p : ScreenPoint) : ScenePoint := ⟨(p.x : ℚ), (p.y : ℚ)⟩

/-! ## Calibration lookup -/

/-- Value stored in the nested CONFIG sensitivity mapping: either a number or
a further dict keyed by a category setting. -/
inductive CalEntry where
  | num (v : ℚ)
  | table (entries : List (String × CalEntry))

/-- Python dict indexing over the entry list of a nested table: the value of
the first matching key, or none standing for a KeyError. -/
def dictLookup : List (String × CalEntry) → String → Option CalEntry
  | [], _ => none
  | (k, v) :: rest, key => if k == key then some v else dictLookup rest key

mutual

/-- ParametersDialog.update_sensitivity (localize.py lines 521-529): walk the
nested sensitivity mapping with the ordered category selections; a missing key
raises KeyError, indexing a number raises TypeError, and the final setValue
requires a number.  All three surface as exceptions, modelled as error. -/
def updateSensitivity : CalEntry → List String → Except String ℚ
  | CalEntry.num v, [] => Except.ok v
  | CalEntry.table _, [] => Except.error "TypeError: setValue expects a number"
  | CalEntry.num _, sel :: _ =>
    Except.error ("TypeError: cannot index a number with " ++ sel)
  | CalEntry.table entries, sel :: rest => lookupStep entries sel rest

/-- Dict indexing step of the sensitivity walk, fused with the recursion over
the nested table: the value of the first matching key continues the walk, a
missing key is a KeyError. -/
def lookupStep : List (String × CalEntry) → String → List String → Except String ℚ
  | [], sel, _ => Except.error ("KeyError: " ++ sel)
  | (k, v) :: es, sel, rest =>
    if k == sel then updateSensitivity v rest else lookupStep es sel rest

end

/-- Selection chains that walk the nested table to a numeric sensitivity. -/
inductive SensPath : CalEntry → List String → ℚ → Prop where
  | num (v : ℚ) : SensPath (CalEntry.num v) [] v
  | step {entries : List (String × CalEntry)} {sel : String} {rest : List String}
      {next : CalEntry} {v : ℚ} :
      dictLookup entries sel = some next → SensPath next rest v →
      SensPath (CalEntry.table entries) (sel :: rest) v

/-- Python dict indexing of the quantum efficiency mapping by wavelength. -/
def qeDictLookup : List (ℚ × ℚ) → ℚ → Option ℚ
  | [], _ => none
  | (k, v) :: rest, w => if k == w then some v else qeDictLookup rest w

/-- ParametersDialog.on_emission_changed (localize.py lines 447-452): the
quantum efficiency is indexed by the selected wavelength; a missing wavelength
raises KeyError, modelled as error. -/
def onEmissionChanged (qetable : List (ℚ × ℚ)) (wavelength : ℚ) : Except String ℚ :=
  match qeDictLookup qetable wavelength with
  | none => Except.error "KeyError: wavelength"
  | some q => Except.ok q

/-! ## Numpy array store and draw_frame -/

/-- Pixel grid of one numpy array, values as rationals. -/
abbrev PixArray := List (List ℚ)

/-- Store of numpy array objects; the index of an array in the store is its
object identity, so in-place operations are updates at a fixed index while
allocating operations append a new array at a fresh index. -/
abbrev ArrayStore := List PixArray

/-- Allocate a new array object and return the store with its id. -/
def allocArray (st : ArrayStore) (a : PixArray) : ArrayStore × Nat :=
  (st ++ [a], st.length)

/-- Read the array object with the given id. -/
def getArray (st : ArrayStore) (i : Nat) : PixArray := st.getD i []

/-- Overwrite the array object with the given id in place. -/
def setArray (st : ArrayStore) (i : Nat) (a : PixArray) : ArrayStore := st.set i a

/-- Elementwise map over a pixel grid. -/
def mapPix (f : ℚ → ℚ) (a : PixArray) : PixArray := a.map (List.map f)

/-- numpy min over all elements of a frame; frames are nonempty in practice
and the empty case is given a default. -/
def pixMin (a : PixArray) : ℚ :=
  match a.flatten with
  | [] => 0
  | x :: xs => xs.foldl min x

/-- numpy max over all elements of a frame; frames are nonempty in practice
and the empty case is given a default. -/
def pixMax (a : PixArray) : ℚ :=
  match a.flatten with
  | [] => 0
  | x :: xs => xs.foldl max x

/-- astype uint8 on a value already clamped into 0..255: truncation toward
zero followed by reduction mod 256. -/
def ratToUint8 (q : ℚ) : ℚ := ((pyInt q % 256 : Int) : ℚ)

/-- Window.draw_frame pixel pipeline (localize.py lines 762-775) on the array
store: frame = movie[n] denotes the stored array object; astype float32
allocates a copy; the in-place operators for subtraction, division and
multiplication mutate only that copy; np.maximum, np.minimum and astype uint8
allocate new arrays.  In auto contrast mode the subtracted offset is the frame
minimum and the divisor is the maximum after subtraction, in manual mode they
are the black and white control values.  Returns the store after the call
together with the id of the rendered uint8 array. -/
def draw_frame (st : ArrayStore) (frameId : Nat) (auto : Bool)
    (black white : ℚ) : ArrayStore × Nat :=
  let alloc1 := allocArray st (getArray st frameId)
  let st1 := alloc1.1
  let fid := alloc1.2
  let st2 :=
    if auto then
      let a := getArray st1 fid
      let stA := setArray st1 fid (mapPix (fun p => p - pixMin a) a)
      let b := getArray stA fid
      setArray stA fid (mapPix (fun p => p / pixMax b) b)
    else
      let a := getArray st1 fid
      let stA := setArray st1 fid (mapPix (fun p => p - black) a)
      let b := getArray stA fid
      setArray stA fid (mapPix (fun p => p / white) b)
  let c := getArray st2 fid
  let st3 := setArray st2 fid (mapPix (fun p => p * 255) c)
  let alloc2 := allocArray st3 (mapPix (fun p => max p 0) (getArray st3 fid))
  let alloc3 := allocArray alloc2.1 (mapPix (fun p => min p 255) (getArray alloc2.1 alloc2.2))
  let alloc4 := allocArray alloc3.1 (mapPix ratToUint8 (getArray alloc3.1 alloc3.2))
  (alloc4.1, alloc4.2)

/-! ## Window state -/

/-- Identification record: frame number and integer box center coordinates. -/
structure Identification where
  frame : Nat
  x : Int
  y : Int

/-- Localization record produced by the fit, as far as the window state is
concerned. -/
structure Localization where
  frame : Nat
  x : ℚ
  y : ℚ

/-- Parameters dict stored as last_identification_info: box size, min net
gradient and the ROI of the run. -/
structure IdentInfo where
  box : Int
  mng : Nat
  roi : Option (List (List Int))

/-- Mutable fields of the main Window (localize.py lines 605-616) touched by
open, on_identify_finished, on_parameters_changed and the min net gradient
control chain. -/
structure WinState where
  movie : Option (List PixArray)
  info : Option (List (String × Int))
  movie_path : Option String
  identifications : Option (List Identification)
  locs : Option (List Localization)
  ready_for_fit : Bool
  last_identification_info : Option IdentInfo
  current_frame_number : Nat
  mng : Nat

/-- Window.on_parameters_changed (localize.py lines 834-837): a reported
parameter change drops the localizations and clears the ready for fit flag. -/
def on_parameters_changed (s : WinState) : WinState :=
  { s with locs := none, ready_for_fit := false }

/-- ParametersDialog.on_box_changed (localize.py lines 430-431): a change of
the box size control always reports a parameter change to the window. -/
def on_box_changed (s : WinState) : WinState := on_parameters_changed s

/-- ParametersDialog.on_mng_slider_changed (localize.py lines 461-464): the
slider writes its value back to the spinbox and reports a parameter change to
the window only while the preview checkbox is checked. -/
def on_mng_slider_changed (preview : Bool) (value : Nat) (s : WinState) : WinState :=
  let s1 := { s with mng := value }
  if preview then on_parameters_changed s1 else s1

/-- Window.on_identify_finished (localize.py lines 857-872): guarded by
if len(identifications), so only a run that found at least one candidate takes
effect; it then drops the localizations, stores the parameters and ROI of the
run, installs the new identification set and sets the ready for fit flag. -/
def on_identify_finished (s : WinState) (box : Int) (mng : Nat)
    (roi : Option (List (List Int))) (ids : List Identification) : WinState :=
  if ids.length ≠ 0 then
    { s with locs := none,
             last_identification_info := some ⟨box, mng, roi⟩,
             identifications := some ids,
             ready_for_fit := true }
  else s

/-- Window.open (localize.py lines 708-721): io.load_movie may return no
result, for example when the movie info prompt is cancelled; only a successful
load installs the movie and info, records the path, resets the analysis state
and jumps to frame 0 via set_frame.  The result of io.load_movie is passed in
as an optional movie and info pair. -/
def window_open (s : WinState) (path : String)
    (result : Option (List PixArray × List (String × Int))) : WinState :=
  match result with
  | none => s
  | some (m, i) =>
    { s with movie := some m, info := some i, movie_path := some path,
             identifications := none, locs := none, ready_for_fit := false,
             current_frame_number := 0 }

/-- Window.prompt_info (localize.py lines 723-726): the movie specs are
returned only when the dialog was accepted; otherwise the method falls through
and returns None. -/
def prompt_info (info : List (String × Int)) (save ok : Bool) :
    Option (List (String × Int) × Bool) :=
  if ok then some (info, save) else none

/-- Window state with stored results of a previous run, used to evaluate the
state transitions at concrete inputs. -/
def exampleState : WinState :=
  { movie := some [[[1, 2], [3, 4]]],
    info := some [("Frames", 1)],
    movie_path := some "movie.raw",
    identifications := some [⟨0, 5, 6⟩],
    locs := some [⟨0, 5, 6⟩],
    ready_for_fit := true,
    last_identification_info := some ⟨7, 5000, none⟩,
    current_frame_number := 0,
    mng := 5000 }

/-! ## Worker polling loop -/

/-- Signals emitted by a worker run: progressMade with the observed counter
value, and finished with the assembled results. -/
inductive WorkerEvent (α : Type) where
  | progress (count : Nat)
  | finished (result : α)

/-- Test whether an event is the finished signal. -/
def isFinishedEvent {α : Type} : WorkerEvent α → Bool
  | WorkerEvent.finished _ => true
  | WorkerEvent.progress _ => false

/-- IdentificationWorker.run and FitWorker.run (localize.py lines 941-952 and
970-982) share this loop: while the shared counter current[0] is below the
number N of work items, emit progressMade with the counter value and sleep
0.2 seconds; after the loop emit one final progressMade and then the finished
signal carrying the results collected from the futures.  The read stream gives
the successive values observed in current[0], one index per read: each loop
round reads the condition at k and the emitted value at k + 1, and the final
emission after the loop reads once more.  The fuel bounds the number of
polling rounds; the result is collected from the futures and does not depend
on the polling. -/
def workerRun (α : Type) (N : Nat) (read : Nat → Nat) (result : α) :
    Nat → Nat → List (WorkerEvent α)
  | 0, _ => []
  | fuel + 1, k =>
    if read k < N then
      WorkerEvent.progress (read (k + 1)) :: workerRun α N read result fuel (k + 2)
    else
      [WorkerEvent.progress (read (k + 1)), WorkerEvent.finished result]

/-- Counter read stream used to evaluate the worker run at a concrete input:
two work items, observed as 0, 1, 2, 2, and so on. -/
def exampleRead (j : Nat) : Nat := min j 2

end Localize

/-! ## Theorems -/

namespace Localize

/-- C3 counterexample: entering 1 into the box size control leaves the value 1,
which is odd but smaller than 3, so the configured box size does not always
satisfy box_size at least 3. -/
theorem box_size_one_counterexample :
    oddSpinBoxValue 1 = 1 ∧ ¬ (3 ≤ oddSpinBoxValue 1) := by
  constructor <;> decide

/-- C3 (amended): every value entered into the box size control yields an odd
box size of at least 1, and an even value inside the widget range is replaced
by value + 1; a lower bound of 3 is not enforced. -/
theorem box_size_odd (v : Int) :
    oddSpinBoxValue v % 2 = 1 ∧ 1 ≤ oddSpinBoxValue v ∧
      (0 ≤ v → v ≤ 99 → v % 2 = 0 → oddSpinBoxValue v = v + 1) := by
  have hc0 : (0 : Int) ≤ max 0 (min 99 v) := le_max_left _ _
  simp only [oddSpinBoxValue, spinBoxClamp, beq_iff_eq]
  refine ⟨?_, ?_, ?_⟩
  · split_ifs with h <;> omega
  · split_ifs with h <;> omega
  · intro h0 h99 hev
    have hcv : max 0 (min 99 v) = v := by
      rw [min_eq_right h99, max_eq_right h0]
    rw [hcv]
    simp [hev]

/-- C3 witness: the theorem applied at the concrete even entry 4. -/
theorem box_size_odd_witness : oddSpinBoxValue 4 = 5 :=
  (box_size_odd 4).2.2 (by decide) (by decide) (by decide)

/-- C6 counterexample: the convergence control accepts 0, so the eps handed to
the fitter does not always satisfy 0 < eps. -/
theorem convergence_zero_counterexample :
    convergenceValue 0 = 0 ∧ ¬ (0 < convergenceValue 0) := by
  constructor <;> norm_num [convergenceValue, doubleSpinBoxClamp]

/-- C6 (amended): for every state of the parameter controls the eps value
handed to the fitter lies in the closed interval from 0 to 1 and the
max_iterations value is at least 0; eps is not kept strictly inside (0,1). -/
theorem convergence_in_closed_interval (v : ℚ) (m : Int) :
    0 ≤ convergenceValue v ∧ convergenceValue v ≤ 1 ∧ 0 ≤ maxIterationsValue m := by
  unfold convergenceValue doubleSpinBoxClamp maxIterationsValue spinBoxClamp
  refine ⟨le_max_left _ _, ?_, le_max_left _ _⟩
  exact max_le (by norm_num) (min_le_left _ _)

/-- C4: the fit method handed to the fitter is sigma exactly when the Symmetric
PSF checkbox is checked, and is always one of sigma and sigmaxy. -/
theorem fit_method_selection (s : Bool) :
    (fitMethod s = "sigma" ↔ s = true) ∧
      (fitMethod s = "sigma" ∨ fitMethod s = "sigmaxy") := by
  cases s <;> simp [fitMethod]

/-- C8: getMovieSpecs returns the little endian marker for every possible
selection of the byte order combo box, because the comparison tests the widget
object itself against the string big endian and is always false. -/
theorem byte_order_always_little_endian (sel : Nat) :
    movieSpecsByteOrder (PyVal.comboBox byteOrderItems sel) = "<" := by
  simp [movieSpecsByteOrder, pyEq]

/-- C9: a completed left-button selection smaller than 10 view pixels in
either direction clears the ROI to none, so later identification runs cover
the whole frame; a selection at least 10 pixels in both directions stores the
ROI as the [row, column] pairs of the two mapped corner points. -/
theorem roi_selection (o s : ScreenPoint) (f : ScreenPoint → ScenePoint) :
    (((s.x - o.x).natAbs < 10 ∨ (s.y - o.y).natAbs < 10) →
        mouseReleaseROI o s f = none) ∧
      (10 ≤ (s.x - o.x).natAbs → 10 ≤ (s.y - o.y).natAbs →
        mouseReleaseROI o s f =
          some [[pyInt (f o).y, pyInt (f o).x], [pyInt (f s).y, pyInt (f s).x]]) := by
  constructor
  · intro h
    simp only [mouseReleaseROI]
    rw [if_pos h]
  · intro hx hy
    have h : ¬ ((s.x - o.x).natAbs < 10 ∨ (s.y - o.y).natAbs < 10) := by omega
    simp only [mouseReleaseROI]
    rw [if_neg h]
    simp

/-- C9 witness: the theorem applied at a small and at a large concrete drag. -/
theorem roi_selection_witness :
    mouseReleaseROI ⟨0, 0⟩ ⟨5, 20⟩ sceneId = none ∧
      mouseReleaseROI ⟨0, 0⟩ ⟨20, 30⟩ sceneId = some [[0, 0], [30, 20]] := by
  constructor
  · exact (roi_selection ⟨0, 0⟩ ⟨5, 20⟩ sceneId).1 (Or.inl (by decide))
  · have h := (roi_selection ⟨0, 0⟩ ⟨20, 30⟩ sceneId).2 (by decide) (by decide)
    rw [h]
    norm_num [sceneId, pyInt]

/-- Fusing the dict lookup back out of the sensitivity walk: lookupStep is dict
indexing followed by the continuation of the walk. -/
theorem lookupStep_eq (entries : List (String × CalEntry)) (sel : String)
    (rest : List String) :
    lookupStep entries sel rest =
      match dictLookup entries sel with
      | none => Except.error ("KeyError: " ++ sel)
      | some next => updateSensitivity next rest := by
  induction entries with
  | nil => rfl
  | cons e es ih =>
    obtain ⟨k, v⟩ := e
    by_cases hk : k == sel
    · simp [lookupStep, dictLookup, hk]
    · simp [lookupStep, dictLookup, hk, ih]

/-- Soundness and completeness of the sensitivity walk with respect to valid
selection chains. -/
theorem updateSensitivity_ok_iff (sels : List String) :
    ∀ (t : CalEntry) (v : ℚ),
      updateSensitivity t sels = Except.ok v ↔ SensPath t sels v := by
  induction sels with
  | nil =>
    intro t v
    cases t with
    | num w =>
      simp only [updateSensitivity, Except.ok.injEq]
      constructor
      · rintro rfl; exact SensPath.num _
      · rintro hp; cases hp; rfl
    | table entries =>
      simp only [updateSensitivity]
      constructor
      · intro h; exact absurd h (by simp)
      · intro hp; cases hp
  | cons sel rest ih =>
    intro t v
    cases t with
    | num w =>
      simp only [updateSensitivity]
      constructor
      · intro h; exact absurd h (by simp)
      · intro hp; cases hp
    | table entries =>
      simp only [updateSensitivity]
      rw [lookupStep_eq]
      cases hd : dictLookup entries sel with
      | none =>
        constructor
        · intro h; exact absurd h (by simp)
        · intro hp
          cases hp with
          | step hl _ => rw [hd] at hl; exact absurd hl (by simp)
      | some next =>
        constructor
        · intro h; exact SensPath.step hd ((ih next v).mp h)
        · intro hp
          cases hp with
          | step hl hrest =>
            rw [hd] at hl
            cases hl
            exact (ih next v).mpr hrest

/-- C5: the sensitivity walk over the ordered category selections returns a
value exactly on chains that lead to a number in the nested table and a
configuration error on every other chain, and the quantum efficiency lookup
returns a value exactly when the selected wavelength is a key of its table and
an error otherwise; both lookups run inside the parameters dialog, before any
fit work is dispatched. -/
theorem calibration_total_or_error (t : CalEntry) (sels : List String)
    (qetable : List (ℚ × ℚ)) (w : ℚ) :
    (∀ v : ℚ, updateSensitivity t sels = Except.ok v ↔ SensPath t sels v) ∧
      ((∃ e, updateSensitivity t sels = Except.error e) ↔
        ∀ v, ¬ SensPath t sels v) ∧
      (∀ q : ℚ, onEmissionChanged qetable w = Except.ok q ↔
        qeDictLookup qetable w = some q) ∧
      ((∃ e, onEmissionChanged qetable w = Except.error e) ↔
        qeDictLookup qetable w = none) := by
  refine ⟨fun v => updateSensitivity_ok_iff sels t v, ?_, ?_, ?_⟩
  · constructor
    · rintro ⟨e, he⟩ v hp
      have := (updateSensitivity_ok_iff sels t v).mpr hp
      rw [he] at this
      exact absurd this (by simp)
    · intro hall
      cases hu : updateSensitivity t sels with
      | ok v => exact absurd ((updateSensitivity_ok_iff sels t v).mp hu) (hall v)
      | error e => exact ⟨e, rfl⟩
  · intro q
    unfold onEmissionChanged
    cases hq : qeDictLookup qetable w <;> simp
  · unfold onEmissionChanged
    cases hq : qeDictLookup qetable w <;> simp

/-- C5 witness: the theorem applied to a one level table with a single
category entry, resolving the selection chain to its sensitivity. -/
theorem calibration_total_or_error_witness :
    updateSensitivity (CalEntry.table [("EM", CalEntry.num 5)]) ["EM"] =
      Except.ok 5 :=
  ((calibration_total_or_error (CalEntry.table [("EM", CalEntry.num 5)])
      ["EM"] [] 0).1 5).mpr
    (SensPath.step (by simp [dictLookup]) (SensPath.num 5))

/-- Reading an id below the end of the store is unaffected by an allocation. -/
theorem getArray_alloc_lt (st : ArrayStore) (a : PixArray) (i : Nat)
    (h : i < st.length) : getArray (allocArray st a).1 i = getArray st i := by
  unfold getArray allocArray
  rw [List.getD_eq_getElem?_getD, List.getD_eq_getElem?_getD,
    List.getElem?_append_left h]

/-- Reading a different id is unaffected by an in-place array update. -/
theorem getArray_set_ne (st : ArrayStore) (j : Nat) (a : PixArray) (i : Nat)
    (h : j ≠ i) : getArray (setArray st j a) i = getArray st i := by
  unfold getArray setArray
  rw [List.getD_eq_getElem?_getD, List.getD_eq_getElem?_getD,
    List.getElem?_set_ne h]

/-- C7: drawing a frame never mutates the stored movie data: every array
object that existed before the call, in particular every frame of the movie,
is bit-for-bit unchanged in the store after draw_frame returns, in auto as
well as in manual contrast mode. -/
theorem draw_frame_preserves_movie (st : ArrayStore) (frameId i : Nat)
    (auto : Bool) (black white : ℚ) (h : i < st.length) :
    getArray (draw_frame st frameId auto black white).1 i = getArray st i := by
  cases auto <;>
  · simp only [draw_frame]
    first
    | rw [if_neg (by decide)]
    | rw [if_pos (by decide)]
    rw [getArray_alloc_lt, getArray_alloc_lt, getArray_alloc_lt, getArray_set_ne,
      getArray_set_ne, getArray_set_ne, getArray_alloc_lt st _ i h] <;>
    · simp [allocArray, setArray]
      omega

/-- C7 witness: the theorem applied to a store holding one concrete 2 by 2
frame, in auto contrast mode. -/
theorem draw_frame_preserves_movie_witness :
    getArray (draw_frame [[[1, 2], [3, 4]]] 0 true 0 255).1 0 =
      getArray [[[1, 2], [3, 4]]] 0 :=
  draw_frame_preserves_movie [[[1, 2], [3, 4]]] 0 0 true 0 255 (by decide)

/-- C1 counterexample: an identification run that finishes with zero
candidates leaves the window state untouched, so the stored identification set
is not replaced by the new empty one, the prior localizations stay set and
ready_for_fit stays true; likewise a min net gradient change while preview is
off leaves the prior localizations and the ready state alive. -/
theorem identify_zero_candidates_counterexample :
    on_identify_finished exampleState 7 300 none [] = exampleState ∧
      (on_identify_finished exampleState 7 300 none []).locs ≠ none ∧
      (on_identify_finished exampleState 7 300 none []).identifications ≠ some [] ∧
      (on_mng_slider_changed false 9999 exampleState).locs ≠ none ∧
      (on_mng_slider_changed false 9999 exampleState).ready_for_fit = true := by
  refine ⟨rfl, ?_, ?_, ?_, rfl⟩ <;>
    simp [on_identify_finished, on_mng_slider_changed, exampleState]

/-- C1 (amended): an identification run that found at least one candidate
fully supersedes prior results for the movie: the identification set is
replaced, prior localizations are dropped and the run parameters and ROI are
stored with the ready flag set; a run with zero candidates leaves the state
unchanged.  A box size change always invalidates prior localizations and the
ready state, while a min net gradient change does so only while preview is
checked. -/
theorem identify_supersedes (s : WinState) (box : Int) (mng : Nat)
    (roi : Option (List (List Int))) (ids : List Identification)
    (preview : Bool) (v : Nat) :
    (ids ≠ [] →
      on_identify_finished s box mng roi ids =
        { s with locs := none,
                 last_identification_info := some ⟨box, mng, roi⟩,
                 identifications := some ids,
                 ready_for_fit := true }) ∧
      (ids = [] → on_identify_finished s box mng roi ids = s) ∧
      ((on_box_changed s).locs = none ∧ (on_box_changed s).ready_for_fit = false) ∧
      (preview = true →
        (on_mng_slider_changed preview v s).locs = none ∧
          (on_mng_slider_changed preview v s).ready_for_fit = false) := by
  refine ⟨?_, ?_, ⟨rfl, rfl⟩, ?_⟩
  · intro hne
    rw [on_identify_finished, if_pos]
    simpa using hne
  · intro he; subst he; rfl
  · rintro rfl
    simp [on_mng_slider_changed, on_parameters_changed]

/-- C1 witness: the theorem applied to a run delivering one candidate on top
of stored previous results. -/
theorem identify_supersedes_witness :
    on_identify_finished exampleState 5 300 none [⟨0, 1, 1⟩] =
      { exampleState with
          locs := none,
          last_identification_info := some ⟨5, 300, none⟩,
          identifications := some [⟨0, 1, 1⟩],
          ready_for_fit := true } :=
  (identify_supersedes exampleState 5 300 none [⟨0, 1, 1⟩] true 0).1 (by simp)

/-- C10: opening a movie is atomic with respect to the window state: when
io.load_movie returns no result, for example after a cancelled movie info
prompt, the whole state and in particular the movie, the identifications, the
localizations, the ready flag and the current frame number are exactly as
before; only a successful load installs the movie and resets identifications,
localizations and the ready flag while jumping to frame 0; and a cancelled
movie info prompt indeed returns None. -/
theorem open_atomic (s : WinState) (path : String) (m : List PixArray)
    (i : List (String × Int)) (info : List (String × Int)) (save : Bool) :
    window_open s path none = s ∧
      ((window_open s path (some (m, i))).movie = some m ∧
        (window_open s path (some (m, i))).identifications = none ∧
        (window_open s path (some (m, i))).locs = none ∧
        (window_open s path (some (m, i))).ready_for_fit = false ∧
        (window_open s path (some (m, i))).current_frame_number = 0) ∧
      prompt_info info save false = none :=
  ⟨rfl, ⟨rfl, rfl, rfl, rfl, rfl⟩, rfl⟩

/-- Step equation of the worker polling loop. -/
theorem workerRun_succ (α : Type) (N : Nat) (read : Nat → Nat) (result : α)
    (fuel k : Nat) :
    workerRun α N read result (fuel + 1) k =
      if read k < N then
        WorkerEvent.progress (read (k + 1)) :: workerRun α N read result fuel (k + 2)
      else
        [WorkerEvent.progress (read (k + 1)), WorkerEvent.finished result] := rfl

/-- Shape of a worker run given enough fuel for the counter to reach N: some
progress signals, then a final progress signal carrying N, then the finished
signal. -/
theorem workerRun_shape (α : Type) (N : Nat) (read : Nat → Nat) (r : α)
    (hmono : Monotone read) (hbound : ∀ j, read j ≤ N) :
    ∀ fuel k, read (k + fuel) = N →
      ∃ ps, workerRun α N read r (fuel + 1) k =
          ps ++ [WorkerEvent.progress N, WorkerEvent.finished r] ∧
        ∀ e ∈ ps, ∃ c, e = WorkerEvent.progress c := by
  intro fuel
  induction fuel with
  | zero =>
    intro k hreach
    rw [Nat.add_zero] at hreach
    have hnl : ¬ read k < N := by omega
    have ha : read k ≤ read (k + 1) := hmono (Nat.le_add_right k 1)
    have hb := hbound (k + 1)
    have h1 : read (k + 1) = N := by omega
    exact ⟨[], by rw [workerRun_succ, if_neg hnl, h1]; simp, by simp⟩
  | succ f ih =>
    intro k hreach
    by_cases hk : read k < N
    · have hm : read (k + (f + 1)) ≤ read (k + 2 + f) := hmono (by omega)
      have hb := hbound (k + 2 + f)
      obtain ⟨ps, hps, hall⟩ := ih (k + 2) (by omega)
      refine ⟨WorkerEvent.progress (read (k + 1)) :: ps, ?_, ?_⟩
      · rw [workerRun_succ, if_pos hk, hps, List.cons_append]
      · intro e he
        rw [List.mem_cons] at he
        rcases he with rfl | he
        · exact ⟨read (k + 1), rfl⟩
        · exact hall e he
    · have hb0 := hbound k
      have ha : read k ≤ read (k + 1) := hmono (Nat.le_add_right k 1)
      have hb1 := hbound (k + 1)
      have h1 : read (k + 1) = N := by omega
      exact ⟨[], by rw [workerRun_succ, if_neg hk, h1]; simp, by simp⟩

/-- C2: for every identification worker run and every fit worker run whose
shared counter is monotone, bounded by the number N of work items and observed
to reach N at read T, the emitted signal sequence is a list of progressMade
signals followed by one final progressMade carrying N and then the finished
signal, so finished is emitted exactly once and only after the final progress
emission; the delivered result is the one collected from the futures,
independent of the polling cadence. -/
theorem worker_finished_once (α : Type) (N : Nat) (read : Nat → Nat) (r : α)
    (T : Nat) (hmono : Monotone read) (hbound : ∀ j, read j ≤ N)
    (hreach : read T = N) :
    ∃ ps, workerRun α N read r (T + 1) 0 =
        ps ++ [WorkerEvent.progress N, WorkerEvent.finished r] ∧
      (∀ e ∈ ps, ∃ c, e = WorkerEvent.progress c) ∧
      (workerRun α N read r (T + 1) 0).filter isFinishedEvent =
        [WorkerEvent.finished r] := by
  obtain ⟨ps, hps, hall⟩ :=
    workerRun_shape α N read r hmono hbound T 0 (by simpa using hreach)
  refine ⟨ps, hps, hall, ?_⟩
  rw [hps, List.filter_append]
  have hpf : ps.filter isFinishedEvent = [] := by
    rw [List.filter_eq_nil_iff]
    intro e he
    obtain ⟨c, rfl⟩ := hall e he
    simp [isFinishedEvent]
  rw [hpf]
  simp [isFinishedEvent]

/-- C2 witness: the theorem applied to a run over two work items whose counter
is observed as 0, 1, 2; the finished signal is delivered exactly once. -/
theorem worker_finished_once_witness :
    (workerRun Nat 2 exampleRead 7 3 0).filter isFinishedEvent =
      [WorkerEvent.finished 7] := by
  obtain ⟨ps, h1, h2, h3⟩ :=
    worker_finished_once Nat 2 exampleRead 7 2
      (monotone_nat_of_le_succ fun j => min_le_min (Nat.le_succ j) le_rfl)
      (fun j => Nat.min_le_right j 2) (by decide)
  exact h3

end Localize
